import Mathlib

/-!
Verification of the multi_elo team/season qualification pipeline.

The source consists of two Python modules, `team_season.py` and
`fetch_and_save.py`, operating on pandas data frames.  We embed the
relevant data as lists of records with natural-number labels for the
opaque identifiers (team, tournament, season, round), strings for score
fields, and rationals for ratings.  Group-by / aggregate / merge
operations become explicit list operations; pandas' sorted group keys
are modelled with `List.insertionSort` over a lexicographic order.
-/

attribute [local semireducible] Rat.add Rat.mul Rat.inv Rat.sub

/-- Lexicographic order on triples of naturals, modelling pandas
multi-column ascending sort keys. -/
def tripleLe (a b : Nat × Nat × Nat) : Prop :=
  a.1 < b.1 ∨ (a.1 = b.1 ∧ (a.2.1 < b.2.1 ∨ (a.2.1 = b.2.1 ∧ a.2.2 ≤ b.2.2)))

instance : DecidableRel tripleLe := fun a b => by
  unfold tripleLe; infer_instance

instance : IsTotal (Nat × Nat × Nat) tripleLe :=
  ⟨by intro a b; unfold tripleLe; omega⟩

instance : IsTrans (Nat × Nat × Nat) tripleLe :=
  ⟨by intro a b c; unfold tripleLe; omega⟩

/-- Lexicographic order on pairs of naturals, used for the
(season, tournament) group keys. -/
def pairLe (a b : Nat × Nat) : Prop :=
  a.1 < b.1 ∨ (a.1 = b.1 ∧ a.2 ≤ b.2)

instance : DecidableRel pairLe := fun a b => by
  unfold pairLe; infer_instance

instance : IsTotal (Nat × Nat) pairLe :=
  ⟨by intro a b; unfold pairLe; omega⟩

instance : IsTrans (Nat × Nat) pairLe :=
  ⟨by intro a b c; unfold pairLe; omega⟩

/-- A raw row of the game-listing CSV, before result classification
(`game_date`, `season`, `tournament`, `round`, `home_team`, `away_team`
are opaque labels; `score` is the textual score field). -/
structure RawGame where
  game_date : Nat
  season : Nat
  tournament : Nat
  round : Nat
  home_team : Nat
  away_team : Nat
  score : String
deriving DecidableEq, Repr

/-- A processed game-listing row: a `RawGame` together with the derived
`result` column added by `read_game_listing`. -/
structure GameRecord where
  game_date : Nat
  season : Nat
  tournament : Nat
  round : Nat
  home_team : Nat
  away_team : Nat
  score : String
  result : String
deriving DecidableEq, Repr

/-- A row of the participation-statistics table produced by
`_get_num_games_stats`: one row per (team, tournament, season) with the
number of distinct rounds played. -/
structure ParticipationRecord where
  team : Nat
  tournament : Nat
  season : Nat
  num_rounds : Nat
deriving DecidableEq, Repr

/-- Python exceptions that the pipeline can raise. -/
inductive PipeError where
  | fileNotFound (msg : String)
  | valueError
  | indexError
deriving DecidableEq, Repr

/-- Splitting a character list at every colon, modelling Python
`score.split(":")`; the empty string yields one empty part. -/
def splitParts : List Char → List (List Char)
  | [] => [[]]
  | c :: cs =>
    if c = ':' then [] :: splitParts cs
    else
      match splitParts cs with
      | [] => [[c]]
      | p :: ps => (c :: p) :: ps

/-- Whitespace recognised by Python `str.strip`. -/
def isSpaceChar (c : Char) : Bool :=
  c = ' ' || c = '\t' || c = '\n' || c = '\r'

/-- Drop leading whitespace characters. -/
def dropLeading : List Char → List Char
  | [] => []
  | c :: cs => if isSpaceChar c then dropLeading cs else c :: cs

/-- Python `str.strip`: drop whitespace at both ends. -/
def pyStrip (l : List Char) : List Char :=
  dropLeading ((dropLeading l.reverse).reverse)

/-- Parse a digit string into a natural number; any non-digit character
fails the parse. -/
def parseDigits : List Char → Nat → Option Nat
  | [], acc => some acc
  | c :: cs, acc =>
    if c.isDigit then parseDigits cs (10 * acc + (c.toNat - 48)) else none

/-- Python `int(...)` on a stripped string: an optional sign followed by
at least one digit; anything else raises `ValueError` (modelled as
`none`). -/
def parseIntChars (l : List Char) : Option Int :=
  match l with
  | [] => none
  | '-' :: rest =>
    if rest = [] then none else (parseDigits rest 0).map (fun n => -(n : Int))
  | '+' :: rest =>
    if rest = [] then none else (parseDigits rest 0).map (fun n => (n : Int))
  | _ => (parseDigits l 0).map (fun n => (n : Int))

/-- Embedding of `_calc_result` from `fetch_and_save.py`: split the
score field on a colon, parse every stripped part as an integer (a part
that does not parse raises `ValueError`), then compare the first two
entries (a missing second entry raises `IndexError`). -/
def _calc_result (score : String) : Except PipeError String :=
  match (splitParts score.data).mapM (fun p => parseIntChars (pyStrip p)) with
  | none => Except.error PipeError.valueError
  | some scores =>
    match scores[0]?, scores[1]? with
    | some a, some b =>
      if a > b then Except.ok "win1"
      else if a = b then Except.ok "draw"
      else Except.ok "win2"
    | _, _ => Except.error PipeError.indexError

/-- Maximum of a list of naturals (0 on the empty list), used for the
pandas `max` aggregation. -/
def maxOf (l : List Nat) : Nat := l.foldr max 0

/-- Minimum of a list of naturals, `none` on the empty list, modelling
pandas `Series.min()` (which yields NaN on an empty series, so that a
subsequent equality filter selects nothing). -/
def listMin : List Nat → Option Nat
  | [] => none
  | x :: xs =>
    match listMin xs with
    | none => some x
    | some m => some (min x m)

/-- The sorted distinct (season, tournament) group keys of a
participation table, modelling `groupby(["season", "tournament"])`. -/
def groupKeys (games_stats : List ParticipationRecord) : List (Nat × Nat) :=
  List.insertionSort pairLe ((games_stats.map (fun r => (r.season, r.tournament))).dedup)

/-- The `max_games` aggregate of one (season, tournament) group: the
maximum `num_rounds` over the group's rows. -/
def groupMaxGames (games_stats : List ParticipationRecord) (s t : Nat) : Nat :=
  maxOf ((games_stats.filter (fun r => decide (r.season = s ∧ r.tournament = t))).map
    (fun r => r.num_rounds))

/-- Embedding of `_calc_min_games_to_include_team` from
`team_season.py`. -/
def _calc_min_games_to_include_team (num_games : Nat) : Nat :=
  if num_games ≤ 2 then 1 else 2

/-- Embedding of `_calc_min_allowed_games_per_tournament`: one row
(season, tournament, min_allowed_num_games) per group, the threshold
derived from the group's `max_games`. -/
def _calc_min_allowed_games_per_tournament (games_stats : List ParticipationRecord) :
    List (Nat × Nat × Nat) :=
  (groupKeys games_stats).map
    (fun k => (k.1, k.2, _calc_min_games_to_include_team (groupMaxGames games_stats k.1 k.2)))

/-- The sort order of `sort_values(["season", "tournament", "team"])`
on participation rows. -/
def comboLe (a b : ParticipationRecord) : Prop :=
  tripleLe (a.season, a.tournament, a.team) (b.season, b.tournament, b.team)

instance : DecidableRel comboLe := fun a b => by
  unfold comboLe; infer_instance

instance : IsTotal ParticipationRecord comboLe :=
  ⟨fun a b => total_of tripleLe _ _⟩

instance : IsTrans ParticipationRecord comboLe :=
  ⟨fun _ _ _ hab hbc => trans_of tripleLe hab hbc⟩

/-- The left merge of the threshold table onto a participation row
followed by the comparison `num_rounds >= min_allowed_num_games`; a row
whose group key is absent from the table compares against a missing
value and is dropped (pandas NaN comparison). -/
def passesThreshold (table : List (Nat × Nat × Nat)) (r : ParticipationRecord) : Bool :=
  match table.find? (fun e => decide (e.1 = r.season ∧ e.2.1 = r.tournament)) with
  | some e => decide (e.2.2 ≤ r.num_rounds)
  | none => false

/-- Embedding of `_calc_team_season_tournament_combos`: floor filter,
per-group threshold computed over the rows surviving the floor,
threshold filter, sort by (season, tournament, team), and projection to
(tournament, season, team). -/
def _calc_team_season_tournament_combos (games_stats : List ParticipationRecord)
    (min_num_games : Nat) : List (Nat × Nat × Nat) :=
  let s1 := games_stats.filter (fun r => decide (min_num_games ≤ r.num_rounds))
  let table := _calc_min_allowed_games_per_tournament s1
  let s2 := s1.filter (passesThreshold table)
  (List.insertionSort comboLe s2).map (fun r => (r.tournament, r.season, r.team))

/-- The concatenation of home-side and away-side participation rows
(team, tournament, season, round), modelling the `concat` of the renamed
home and away frames in `_get_num_games_stats`. -/
def teamRows (listing : List GameRecord) : List (Nat × Nat × Nat × Nat) :=
  listing.map (fun g => (g.home_team, g.tournament, g.season, g.round)) ++
    listing.map (fun g => (g.away_team, g.tournament, g.season, g.round))

/-- The sorted distinct (team, tournament, season) keys of the
participation rows, modelling `groupby(["team", "tournament", "season"])`. -/
def statKeys (listing : List GameRecord) : List (Nat × Nat × Nat) :=
  List.insertionSort tripleLe (((teamRows listing).map (fun x => (x.1, x.2.1, x.2.2.1))).dedup)

/-- Embedding of `_get_num_games_stats`: one row per distinct
(team, tournament, season) with `num_rounds` the number of distinct
round labels among that key's rows (`nunique` aggregation). -/
def _get_num_games_stats (listing : List GameRecord) : List ParticipationRecord :=
  (statKeys listing).map (fun k =>
    { team := k.1, tournament := k.2.1, season := k.2.2,
      num_rounds :=
        (((teamRows listing).filter (fun x => decide ((x.1, x.2.1, x.2.2.1) = k))).map
          (fun x => x.2.2.2)).dedup.length })

/-- Embedding of lines 40-43 of `team_season.py`: take the minimum
season of the combo table, keep the team column of the rows of that
season, and attach the uniform start rating. -/
def init_first_season_ratings (combos : List (Nat × Nat × Nat)) (start_rating : Nat) :
    List (Nat × Nat) :=
  match listMin (combos.map (fun c => c.2.1)) with
  | none => []
  | some m => (combos.filter (fun c => decide (c.2.1 = m))).map (fun c => (c.2.2, start_rating))

/-- Embedding of `read_game_listing`: look the path up in the file
system (a missing file raises `FileNotFoundError` naming the path), sort
the rows by date, and add the `result` column via `_calc_result`,
propagating its errors. -/
def read_game_listing (fs : String → Option (List RawGame)) (path : String) :
    Except PipeError (List GameRecord) :=
  match fs path with
  | none => Except.error (PipeError.fileNotFound path)
  | some listing =>
    (List.insertionSort (fun a b => a.game_date ≤ b.game_date) listing).mapM
      (fun g =>
        match _calc_result g.score with
        | Except.error e => Except.error e
        | Except.ok res =>
          Except.ok
            { game_date := g.game_date, season := g.season, tournament := g.tournament,
              round := g.round, home_team := g.home_team, away_team := g.away_team,
              score := g.score, result := res })

/-- Embedding of `generate_team_season_combos_and_init_team_ratings`:
read the listing (re-raising a missing file as
"File not found: <path>"), derive the participation statistics, the
qualified combos and the first-season initial ratings; the two output
tables are returned instead of being written to CSV. -/
def generate_team_season_combos_and_init_team_ratings (fs : String → Option (List RawGame))
    (games_list_path : String) (min_num_games : Nat) (start_rating : Nat) :
    Except PipeError (List (Nat × Nat × Nat) × List (Nat × Nat)) :=
  match read_game_listing fs games_list_path with
  | Except.error (PipeError.fileNotFound _) =>
    Except.error (PipeError.fileNotFound ("File not found: " ++ games_list_path))
  | Except.error e => Except.error e
  | Except.ok listing =>
    let games_stats := _get_num_games_stats listing
    let team_season_combos := _calc_team_season_tournament_combos games_stats min_num_games
    Except.ok (team_season_combos, init_first_season_ratings team_season_combos start_rating)

/-- A row of the team-season CSV consumed by
`save_prepare_season_initial_ratings`. -/
structure TeamSeasonRow where
  tournament : Nat
  season : Nat
  team : Nat
deriving DecidableEq, Repr

/-- Left-join lookup of a team's external rating; `none` models the NaN
a pandas left merge leaves for an unmatched team. -/
def lookupRating (elo_ratings : List (Nat × ℚ)) (tm : Nat) : Option ℚ :=
  (elo_ratings.find? (fun e => decide (e.1 = tm))).map (fun e => e.2)

/-- Rounding to two decimal places, modelling pandas `.round(2)`. -/
def round2 (q : ℚ) : ℚ := (round (100 * q) : ℤ) / 100

/-- The per-tournament mean rating over the joined rows, skipping
missing ratings (pandas `mean` skips NaN); a tournament with no present
rating gets a missing mean. -/
def tournamentAvgRating (rows : List (TeamSeasonRow × Option ℚ)) (t : Nat) : Option ℚ :=
  let rs := (rows.filter (fun x => decide (x.1.tournament = t))).filterMap (fun x => x.2)
  match rs with
  | [] => none
  | _ :: _ => some (round2 (rs.sum / (rs.length : ℚ)))

/-- Embedding of `save_prepare_season_initial_ratings`: restrict the
team-season table to its minimum season, left-join the external ratings
by team, and emit (team, tournament-average rating rounded to two
decimals) for every remaining row. -/
def save_prepare_season_initial_ratings (elo_ratings : List (Nat × ℚ))
    (team_seasons : List TeamSeasonRow) : List (Nat × Option ℚ) :=
  match listMin (team_seasons.map (fun r => r.season)) with
  | none => []
  | some m =>
    let ts := team_seasons.filter (fun r => decide (r.season = m))
    let joined := ts.map (fun r => (r, lookupRating elo_ratings r.team))
    joined.map (fun x => (x.1.team, tournamentAvgRating joined x.1.tournament))

/-- Specification-side predicate: team `tm` appears in the listing for
tournament `tn` and season `s`, as home or away side. -/
def participates (listing : List GameRecord) (tm tn s : Nat) : Prop :=
  ∃ g ∈ listing, (g.home_team = tm ∨ g.away_team = tm) ∧ g.tournament = tn ∧ g.season = s

/-- Specification-side count of the distinct round labels in which team
`tm` appears (home or away) for tournament `tn` and season `s`. -/
def distinctRounds (listing : List GameRecord) (tm tn s : Nat) : Nat :=
  ((listing.filter (fun g =>
      decide ((g.home_team = tm ∨ g.away_team = tm) ∧ g.tournament = tn ∧ g.season = s))).map
    (fun g => g.round)).toFinset.card

theorem le_maxOf {l : List Nat} {a : Nat} (h : a ∈ l) : a ≤ maxOf l := by
  induction l with
  | nil => cases h
  | cons x xs ih =>
    rcases List.mem_cons.mp h with h | h
    · subst h; exact Nat.le_max_left _ _
    · exact Nat.le_trans (ih h) (Nat.le_max_right _ _)

theorem maxOf_le {l : List Nat} {b : Nat} (h : ∀ a ∈ l, a ≤ b) : maxOf l ≤ b := by
  induction l with
  | nil => exact Nat.zero_le b
  | cons x xs ih =>
    exact Nat.max_le.mpr ⟨h x (List.mem_cons_self x xs), ih (fun a ha => h a (List.mem_cons_of_mem x ha))⟩

theorem mem_groupKeys {games_stats : List ParticipationRecord} {k : Nat × Nat} :
    k ∈ groupKeys games_stats ↔ ∃ r ∈ games_stats, r.season = k.1 ∧ r.tournament = k.2 := by
  unfold groupKeys
  rw [List.mem_insertionSort, List.mem_dedup, List.mem_map]
  constructor
  · rintro ⟨r, hr, hk⟩
    exact ⟨r, hr, by rw [← hk], by rw [← hk]⟩
  · rintro ⟨r, hr, h1, h2⟩
    exact ⟨r, hr, by cases k; simp_all⟩

theorem find_minAllowedTable (games_stats : List ParticipationRecord) (s t : Nat)
    (h : ∃ r ∈ games_stats, r.season = s ∧ r.tournament = t) :
    (_calc_min_allowed_games_per_tournament games_stats).find?
        (fun e => decide (e.1 = s ∧ e.2.1 = t)) =
      some (s, t, _calc_min_games_to_include_team (groupMaxGames games_stats s t)) := by
  have hmem : (s, t) ∈ groupKeys games_stats := by
    rcases h with ⟨r, hr, h1, h2⟩
    exact mem_groupKeys.mpr ⟨r, hr, h1, h2⟩
  have hsome : ((_calc_min_allowed_games_per_tournament games_stats).find?
      (fun e => decide (e.1 = s ∧ e.2.1 = t))).isSome = true := by
    rw [List.find?_isSome]
    refine ⟨(s, t, _calc_min_games_to_include_team (groupMaxGames games_stats s t)), ?_, by simp⟩
    unfold _calc_min_allowed_games_per_tournament
    exact List.mem_map.mpr ⟨(s, t), hmem, rfl⟩
  rcases Option.isSome_iff_exists.mp hsome with ⟨e, he⟩
  have hpe := List.find?_some he
  have hme := List.mem_of_find?_eq_some he
  unfold _calc_min_allowed_games_per_tournament at hme
  rcases List.mem_map.mp hme with ⟨k, _, hk⟩
  simp only [decide_eq_true_eq] at hpe
  rw [he]
  have h1 : e.1 = s := hpe.1
  have h2 : e.2.1 = t := hpe.2
  have hk1 : k.1 = e.1 := by rw [← hk]
  have hk2 : k.2 = e.2.1 := by rw [← hk]
  have : e = (e.1, e.2.1, e.2.2) := rfl
  rw [this, h1, h2]
  have he22 : e.2.2 = _calc_min_games_to_include_team (groupMaxGames games_stats s t) := by
    rw [← hk]
    simp only []
    rw [hk1, hk2, h1, h2]
  rw [he22]

theorem passesThreshold_table (games_stats : List ParticipationRecord)
    (r : ParticipationRecord) (h : ∃ x ∈ games_stats, x.season = r.season ∧ x.tournament = r.tournament) :
    passesThreshold (_calc_min_allowed_games_per_tournament games_stats) r =
      decide (_calc_min_games_to_include_team
        (groupMaxGames games_stats r.season r.tournament) ≤ r.num_rounds) := by
  unfold passesThreshold
  rw [find_minAllowedTable games_stats r.season r.tournament h]

/-- C1: every row of the per-(season, tournament) threshold table
carries the threshold 1 when the group's `max_games` is at most 2 and
the threshold 2 otherwise; in particular `max_games = 2` gives
threshold 1 and `max_games = 3` gives threshold 2. -/
theorem min_allowed_threshold_rule (games_stats : List ParticipationRecord) :
    (∀ e ∈ _calc_min_allowed_games_per_tournament games_stats,
        e.2.2 = if groupMaxGames games_stats e.1 e.2.1 ≤ 2 then 1 else 2) ∧
      _calc_min_games_to_include_team 2 = 1 ∧ _calc_min_games_to_include_team 3 = 2 := by
  refine ⟨?_, rfl, rfl⟩
  intro e he
  unfold _calc_min_allowed_games_per_tournament at he
  rcases List.mem_map.mp he with ⟨k, _, hk⟩
  rw [← hk]
  rfl

/-- Witness for C1: a group whose maximal `num_rounds` is 2 receives
the threshold 1. -/
theorem min_allowed_threshold_rule_witness :
    (0, 0, 1).2.2 = if groupMaxGames [⟨0, 0, 0, 2⟩] 0 0 ≤ 2 then 1 else 2 :=
  (min_allowed_threshold_rule [⟨0, 0, 0, 2⟩]).1 (0, 0, 1) (by decide)

/-- C2: a triple is emitted by the qualification filter exactly when
some participation row carries it, clears the caller-supplied floor,
and clears the per-(tournament, season) threshold that is derived from
the maximum `num_rounds` among the rows surviving the floor filter. -/
theorem combos_membership (games_stats : List ParticipationRecord) (m : Nat)
    (x : Nat × Nat × Nat) :
    x ∈ _calc_team_season_tournament_combos games_stats m ↔
      ∃ r ∈ games_stats, m ≤ r.num_rounds ∧
        (if groupMaxGames (games_stats.filter (fun q => decide (m ≤ q.num_rounds)))
            r.season r.tournament ≤ 2 then 1 else 2) ≤ r.num_rounds ∧
        x = (r.tournament, r.season, r.team) := by
  simp only [_calc_team_season_tournament_combos, List.mem_map, List.mem_insertionSort,
    List.mem_filter, decide_eq_true_eq]
  constructor
  · rintro ⟨a, ⟨⟨ha, hfloor⟩, hpass⟩, hx⟩
    have hmem : a ∈ games_stats.filter (fun q => decide (m ≤ q.num_rounds)) :=
      List.mem_filter.mpr ⟨ha, by simpa⟩
    rw [passesThreshold_table _ a ⟨a, hmem, rfl, rfl⟩] at hpass
    simp only [_calc_min_games_to_include_team, decide_eq_true_eq] at hpass
    exact ⟨a, ha, hfloor, hpass, hx.symm⟩
  · rintro ⟨r, hr, hfloor, hthresh, hx⟩
    have hmem : r ∈ games_stats.filter (fun q => decide (m ≤ q.num_rounds)) :=
      List.mem_filter.mpr ⟨hr, by simpa⟩
    refine ⟨r, ⟨⟨hr, hfloor⟩, ?_⟩, hx.symm⟩
    rw [passesThreshold_table _ r ⟨r, hmem, rfl, rfl⟩]
    simp only [_calc_min_games_to_include_team, decide_eq_true_eq]
    exact hthresh

/-- Witness for C2 at a concrete table: with floor 1, the single row
(team 0, tournament 0, season 0, two rounds) is emitted. -/
theorem combos_membership_witness :
    (0, 0, 0) ∈ _calc_team_season_tournament_combos [⟨0, 0, 0, 2⟩] 1 ↔
      ∃ r ∈ [(⟨0, 0, 0, 2⟩ : ParticipationRecord)], 1 ≤ r.num_rounds ∧
        (if groupMaxGames ([(⟨0, 0, 0, 2⟩ : ParticipationRecord)].filter
            (fun q => decide (1 ≤ q.num_rounds))) r.season r.tournament ≤ 2 then 1 else 2) ≤
          r.num_rounds ∧
        ((0 : Nat), (0 : Nat), (0 : Nat)) = (r.tournament, r.season, r.team) :=
  combos_membership [⟨0, 0, 0, 2⟩] 1 (0, 0, 0)

theorem groupMaxGames_floor_eq (games_stats : List ParticipationRecord) (f1 f2 s t : Nat)
    (h12 : f1 ≤ f2)
    (hw : ∃ w ∈ games_stats, f2 ≤ w.num_rounds ∧ w.season = s ∧ w.tournament = t) :
    groupMaxGames (games_stats.filter (fun x => decide (f1 ≤ x.num_rounds))) s t =
      groupMaxGames (games_stats.filter (fun x => decide (f2 ≤ x.num_rounds))) s t := by
  rcases hw with ⟨w, hwmem, hwf2, hws, hwt⟩
  unfold groupMaxGames
  apply Nat.le_antisymm
  · apply maxOf_le
    intro a ha
    simp only [List.mem_map, List.mem_filter, decide_eq_true_eq] at ha
    rcases ha with ⟨x, ⟨⟨hx, _⟩, hkey⟩, hxa⟩
    by_cases hcase : f2 ≤ x.num_rounds
    · apply le_maxOf
      simp only [List.mem_map, List.mem_filter, decide_eq_true_eq]
      exact ⟨x, ⟨⟨hx, hcase⟩, hkey⟩, hxa⟩
    · have hwin : w.num_rounds ∈
          ((games_stats.filter (fun x => decide (f2 ≤ x.num_rounds))).filter
            (fun r => decide (r.season = s ∧ r.tournament = t))).map (fun r => r.num_rounds) := by
        simp only [List.mem_map, List.mem_filter, decide_eq_true_eq]
        exact ⟨w, ⟨⟨hwmem, hwf2⟩, hws, hwt⟩, rfl⟩
      have hwle := le_maxOf hwin
      omega
  · apply maxOf_le
    intro a ha
    simp only [List.mem_map, List.mem_filter, decide_eq_true_eq] at ha
    rcases ha with ⟨x, ⟨⟨hx, hxf⟩, hkey⟩, hxa⟩
    apply le_maxOf
    simp only [List.mem_map, List.mem_filter, decide_eq_true_eq]
    exact ⟨x, ⟨⟨hx, Nat.le_trans h12 hxf⟩, hkey⟩, hxa⟩

theorem passesThreshold_mono (games_stats : List ParticipationRecord) (f1 f2 : Nat)
    (h12 : f1 ≤ f2) (r : ParticipationRecord)
    (h2 : passesThreshold (_calc_min_allowed_games_per_tournament
      (games_stats.filter (fun x => decide (f2 ≤ x.num_rounds)))) r = true) :
    passesThreshold (_calc_min_allowed_games_per_tournament
      (games_stats.filter (fun x => decide (f1 ≤ x.num_rounds)))) r = true := by
  unfold passesThreshold at h2
  cases hfind : (_calc_min_allowed_games_per_tournament
      (games_stats.filter (fun x => decide (f2 ≤ x.num_rounds)))).find?
        (fun e => decide (e.1 = r.season ∧ e.2.1 = r.tournament)) with
  | none => rw [hfind] at h2; cases h2
  | some e =>
    rw [hfind] at h2
    have hpe := List.find?_some hfind
    simp only [decide_eq_true_eq] at hpe h2
    have hme := List.mem_of_find?_eq_some hfind
    unfold _calc_min_allowed_games_per_tournament at hme
    rcases List.mem_map.mp hme with ⟨k, hkmem, hke⟩
    rcases mem_groupKeys.mp hkmem with ⟨w, hwmem, hws, hwt⟩
    rcases List.mem_filter.mp hwmem with ⟨hwstats, hwf2⟩
    simp only [decide_eq_true_eq] at hwf2
    have hk1 : k.1 = r.season := by rw [← hpe.1, ← hke]
    have hk2 : k.2 = r.tournament := by rw [← hpe.2, ← hke]
    have hwitness : ∃ x ∈ games_stats.filter (fun x => decide (f1 ≤ x.num_rounds)),
        x.season = r.season ∧ x.tournament = r.tournament := by
      refine ⟨w, List.mem_filter.mpr ⟨hwstats, by simp; omega⟩, ?_, ?_⟩
      · rw [hws, hk1]
      · rw [hwt, hk2]
    rw [passesThreshold_table _ r hwitness]
    have hgm : groupMaxGames (games_stats.filter (fun x => decide (f1 ≤ x.num_rounds)))
        r.season r.tournament =
        groupMaxGames (games_stats.filter (fun x => decide (f2 ≤ x.num_rounds)))
        r.season r.tournament := by
      apply groupMaxGames_floor_eq games_stats f1 f2 r.season r.tournament h12
      exact ⟨w, hwstats, hwf2, by rw [hws, hk1], by rw [hwt, hk2]⟩
    have he22 : e.2.2 = _calc_min_games_to_include_team
        (groupMaxGames (games_stats.filter (fun x => decide (f2 ≤ x.num_rounds)))
          r.season r.tournament) := by
      rw [← hke]
      simp only []
      rw [hk1, hk2]
    rw [hgm, ← he22]
    simpa using h2

/-- C5: raising the caller-supplied floor `min_num_games` never
increases the number of emitted qualified combinations. -/
theorem combos_monotone (games_stats : List ParticipationRecord) (f1 f2 : Nat) (h12 : f1 ≤ f2) :
    (_calc_team_season_tournament_combos games_stats f2).length ≤
      (_calc_team_season_tournament_combos games_stats f1).length := by
  unfold _calc_team_season_tournament_combos
  rw [List.length_map, List.length_insertionSort, List.length_map, List.length_insertionSort]
  rw [List.filter_filter, List.filter_filter]
  apply List.Sublist.length_le
  apply List.monotone_filter_right
  intro a ha
  simp only [Bool.and_eq_true] at ha
  rcases ha with ⟨hpass2, hfloor2⟩
  simp only [decide_eq_true_eq] at hfloor2
  simp only [Bool.and_eq_true]
  constructor
  · exact passesThreshold_mono games_stats f1 f2 h12 a hpass2
  · simp only [decide_eq_true_eq]
    omega

/-- Witness for C5: raising the floor from 1 to 3 on a two-row table
does not increase the combo count. -/
theorem combos_monotone_witness :
    (_calc_team_season_tournament_combos [⟨5, 1, 0, 3⟩, ⟨6, 1, 0, 1⟩] 3).length ≤
      (_calc_team_season_tournament_combos [⟨5, 1, 0, 3⟩, ⟨6, 1, 0, 1⟩] 1).length :=
  combos_monotone [⟨5, 1, 0, 3⟩, ⟨6, 1, 0, 1⟩] 1 3 (by decide)

/-- C3 as stated fails: the filter performs no deduplication, so a
participation table holding the same (team, tournament, season) row
twice yields the same output triple twice. -/
theorem combos_dup_counterexample :
    ¬ (_calc_team_season_tournament_combos [⟨0, 0, 0, 1⟩, ⟨0, 0, 0, 1⟩] 1).Nodup := by
  decide

theorem nodup_proj_of_nodup_key (l : List ParticipationRecord)
    (h : (l.map (fun r => (r.team, r.tournament, r.season))).Nodup) :
    (l.map (fun r => (r.tournament, r.season, r.team))).Nodup := by
  have hp : l.Pairwise
      (fun a b => (a.team, a.tournament, a.season) ≠ (b.team, b.tournament, b.season)) :=
    List.pairwise_map.mp h
  refine List.pairwise_map.mpr (hp.imp ?_)
  intro a b hne heq
  apply hne
  simp only [Prod.mk.injEq] at heq ⊢
  exact ⟨heq.2.2, heq.1, heq.2.1⟩

/-- C3 amended: the output of the qualification filter is sorted
ascending by (season, tournament, team), and whenever the input table
holds no duplicate (team, tournament, season) row — as is the case for
the participation tables arising in the pipeline — the output holds no
duplicate (tournament, season, team) triple. -/
theorem combos_sorted_nodup (games_stats : List ParticipationRecord) (m : Nat) :
    (_calc_team_season_tournament_combos games_stats m).Pairwise
        (fun a b => tripleLe (a.2.1, a.1, a.2.2) (b.2.1, b.1, b.2.2)) ∧
      ((games_stats.map (fun r => (r.team, r.tournament, r.season))).Nodup →
        (_calc_team_season_tournament_combos games_stats m).Nodup) := by
  constructor
  · simp only [_calc_team_season_tournament_combos]
    apply List.Pairwise.map
    · intro a b hab
      exact hab
    · exact List.sorted_insertionSort comboLe _
  · intro hnd
    simp only [_calc_team_season_tournament_combos]
    apply nodup_proj_of_nodup_key
    have hsub : List.Sublist ((games_stats.filter (fun r => decide (m ≤ r.num_rounds))).filter
        (passesThreshold (_calc_min_allowed_games_per_tournament
          (games_stats.filter (fun r => decide (m ≤ r.num_rounds)))))) games_stats :=
      (List.filter_sublist _).trans (List.filter_sublist _)
    have hnd2 := List.Nodup.sublist
      (hsub.map (fun r : ParticipationRecord => (r.team, r.tournament, r.season))) hnd
    exact (((List.perm_insertionSort comboLe _).map
      (fun r : ParticipationRecord => (r.team, r.tournament, r.season))).nodup_iff).mpr hnd2

/-- Witness for C3 amended: on a duplicate-free one-row table the
output is duplicate-free. -/
theorem combos_sorted_nodup_witness :
    (_calc_team_season_tournament_combos [⟨0, 0, 0, 1⟩] 1).Nodup :=
  (combos_sorted_nodup [⟨0, 0, 0, 1⟩] 1).2 (by decide)

theorem stats_keys_eq (listing : List GameRecord) :
    (_get_num_games_stats listing).map (fun r => (r.team, r.tournament, r.season)) =
      statKeys listing := by
  unfold _get_num_games_stats
  rw [List.map_map]
  have hfun : ((fun r : ParticipationRecord => (r.team, r.tournament, r.season)) ∘
      (fun k : Nat × Nat × Nat =>
        ({ team := k.1, tournament := k.2.1, season := k.2.2,
           num_rounds :=
             (((teamRows listing).filter
                 (fun x => decide ((x.1, x.2.1, x.2.2.1) = k))).map
               (fun x => x.2.2.2)).dedup.length } : ParticipationRecord))) = id := rfl
  rw [hfun, List.map_id]

theorem statKeys_nodup (listing : List GameRecord) : (statKeys listing).Nodup := by
  unfold statKeys
  exact ((List.perm_insertionSort tripleLe _).nodup_iff).mpr (List.nodup_dedup _)

theorem roundsFinset_eq (listing : List GameRecord) (tm tn s : Nat) :
    (((teamRows listing).filter (fun x => decide ((x.1, x.2.1, x.2.2.1) = (tm, tn, s)))).map
        (fun x => x.2.2.2)).toFinset =
      ((listing.filter (fun g =>
          decide ((g.home_team = tm ∨ g.away_team = tm) ∧ g.tournament = tn ∧ g.season = s))).map
        (fun g => g.round)).toFinset := by
  ext a
  simp only [List.mem_toFinset, List.mem_map, List.mem_filter, decide_eq_true_eq, teamRows,
    List.mem_append, Prod.mk.injEq]
  constructor
  · rintro ⟨x, ⟨hx, hkey⟩, hxa⟩
    rcases hx with ⟨g, hg, hgx⟩ | ⟨g, hg, hgx⟩
    · subst hgx
      exact ⟨g, ⟨hg, Or.inl hkey.1, hkey.2.1, hkey.2.2⟩, hxa⟩
    · subst hgx
      exact ⟨g, ⟨hg, Or.inr hkey.1, hkey.2.1, hkey.2.2⟩, hxa⟩
  · rintro ⟨g, ⟨hg, hside, ht, hs⟩, hr⟩
    rcases hside with hh | ha
    · exact ⟨(g.home_team, g.tournament, g.season, g.round),
        ⟨Or.inl ⟨g, hg, rfl⟩, hh, ht, hs⟩, hr⟩
    · exact ⟨(g.away_team, g.tournament, g.season, g.round),
        ⟨Or.inr ⟨g, hg, rfl⟩, ha, ht, hs⟩, hr⟩

/-- C4: the participation analysis holds one row per distinct
(team, tournament, season), a row (team, tournament, season, n) being
present exactly when the team appears in that tournament and season (as
home or away side) and n is the number of distinct round labels of its
appearances; the empty listing yields the empty table. -/
theorem num_games_stats_spec (listing : List GameRecord) :
    ((_get_num_games_stats listing).map (fun r => (r.team, r.tournament, r.season))).Nodup ∧
      (∀ tm tn s n, (⟨tm, tn, s, n⟩ : ParticipationRecord) ∈ _get_num_games_stats listing ↔
        participates listing tm tn s ∧ n = distinctRounds listing tm tn s) ∧
      _get_num_games_stats [] = [] := by
  refine ⟨by rw [stats_keys_eq]; exact statKeys_nodup listing, ?_, rfl⟩
  intro tm tn s n
  constructor
  · intro h
    unfold _get_num_games_stats at h
    rcases List.mem_map.mp h with ⟨k, hk, hke⟩
    have h1 : k.1 = tm := congrArg ParticipationRecord.team hke
    have h2 : k.2.1 = tn := congrArg ParticipationRecord.tournament hke
    have h3 : k.2.2 = s := congrArg ParticipationRecord.season hke
    have h4 : (((teamRows listing).filter (fun x => decide ((x.1, x.2.1, x.2.2.1) = k))).map
        (fun x => x.2.2.2)).dedup.length = n := congrArg ParticipationRecord.num_rounds hke
    have hk' : k = (tm, tn, s) := by
      obtain ⟨k1, k2, k3⟩ := k
      simp only [Prod.mk.injEq]
      exact ⟨h1, h2, h3⟩
    subst hk'
    constructor
    · unfold statKeys at hk
      rw [List.mem_insertionSort, List.mem_dedup] at hk
      rcases List.mem_map.mp hk with ⟨x, hx, hxk⟩
      unfold teamRows at hx
      simp only [Prod.mk.injEq] at hxk
      rcases List.mem_append.mp hx with hx | hx
      · rcases List.mem_map.mp hx with ⟨g, hg, hgx⟩
        subst hgx
        exact ⟨g, hg, Or.inl hxk.1, hxk.2.1, hxk.2.2⟩
      · rcases List.mem_map.mp hx with ⟨g, hg, hgx⟩
        subst hgx
        exact ⟨g, hg, Or.inr hxk.1, hxk.2.1, hxk.2.2⟩
    · rw [← h4]
      unfold distinctRounds
      rw [← roundsFinset_eq, List.card_toFinset]
  · rintro ⟨⟨g, hg, hside, ht, hs⟩, hn⟩
    unfold _get_num_games_stats
    apply List.mem_map.mpr
    refine ⟨(tm, tn, s), ?_, ?_⟩
    · unfold statKeys
      rw [List.mem_insertionSort, List.mem_dedup]
      apply List.mem_map.mpr
      rcases hside with hh | ha
      · refine ⟨(g.home_team, g.tournament, g.season, g.round), ?_, by simp [hh, ht, hs]⟩
        unfold teamRows
        exact List.mem_append.mpr (Or.inl (List.mem_map.mpr ⟨g, hg, rfl⟩))
      · refine ⟨(g.away_team, g.tournament, g.season, g.round), ?_, by simp [ha, ht, hs]⟩
        unfold teamRows
        exact List.mem_append.mpr (Or.inr (List.mem_map.mpr ⟨g, hg, rfl⟩))
    · have hcount : (((teamRows listing).filter
          (fun x => decide ((x.1, x.2.1, x.2.2.1) = ((tm, tn, s) : Nat × Nat × Nat)))).map
            (fun x => x.2.2.2)).dedup.length = n := by
        rw [← List.card_toFinset, roundsFinset_eq]
        exact (hn.trans (by unfold distinctRounds; rfl)).symm
      simp only [ParticipationRecord.mk.injEq]
      exact ⟨trivial, trivial, trivial, hcount⟩

/-- Witness for C4: a team appearing home and away in the same round of
a one-game listing gets one row with a single counted round. -/
theorem num_games_stats_spec_witness :
    (⟨4, 3, 7, 1⟩ : ParticipationRecord) ∈
        _get_num_games_stats [⟨0, 7, 3, 9, 4, 4, "", ""⟩] ↔
      participates [⟨0, 7, 3, 9, 4, 4, "", ""⟩] 4 3 7 ∧
        1 = distinctRounds [⟨0, 7, 3, 9, 4, 4, "", ""⟩] 4 3 7 :=
  (num_games_stats_spec [⟨0, 7, 3, 9, 4, 4, "", ""⟩]).2.1 4 3 7 1

/-- C10: the participation table has at most one row per
(team, tournament, season) triple and every row counts at least one
round, so the qualification filter's pipeline input is duplicate-free
even though the filter itself never deduplicates. -/
theorem stats_nodup_and_pos (listing : List GameRecord) :
    ((_get_num_games_stats listing).map (fun r => (r.team, r.tournament, r.season))).Nodup ∧
      ∀ r ∈ _get_num_games_stats listing, 1 ≤ r.num_rounds := by
  constructor
  · rw [stats_keys_eq]
    exact statKeys_nodup listing
  · intro r hr
    unfold _get_num_games_stats at hr
    rcases List.mem_map.mp hr with ⟨k, hk, hke⟩
    unfold statKeys at hk
    rw [List.mem_insertionSort, List.mem_dedup] at hk
    rcases List.mem_map.mp hk with ⟨x, hx, hxk⟩
    have hxf : x ∈ (teamRows listing).filter (fun y => decide ((y.1, y.2.1, y.2.2.1) = k)) :=
      List.mem_filter.mpr ⟨hx, by simp [hxk]⟩
    have hmem : x.2.2.2 ∈ (((teamRows listing).filter
        (fun y => decide ((y.1, y.2.1, y.2.2.1) = k))).map (fun y => y.2.2.2)).dedup :=
      List.mem_dedup.mpr (List.mem_map.mpr ⟨x, hxf, rfl⟩)
    rw [← hke]
    exact List.length_pos.mpr (List.ne_nil_of_mem hmem)

/-- Witness for C10: in a one-game listing, the home team's row counts
one round. -/
theorem stats_nodup_and_pos_witness :
    1 ≤ (⟨10, 3, 7, 1⟩ : ParticipationRecord).num_rounds :=
  (stats_nodup_and_pos [⟨0, 7, 3, 1, 10, 11, "", ""⟩]).2 ⟨10, 3, 7, 1⟩ (by decide)

/-- C6 as stated fails: the initial-rating step keeps one output row
per surviving combo row, so a team in two tournaments of the earliest
season appears twice instead of being deduplicated. -/
theorem init_ratings_dup_counterexample :
    ¬ ((init_first_season_ratings [(1, 0, 5), (2, 0, 5)] 2000).map Prod.fst).Nodup := by
  decide

/-- C6 amended: the initial-rating step selects the rows of the minimum
season regardless of tournament and assigns each the uniform start
rating without deduplicating by team; as a team-to-rating mapping it
still covers exactly the earliest season's distinct teams, each mapped
to the start rating. -/
theorem init_ratings_first_season (combos : List (Nat × Nat × Nat)) (start_rating : Nat) :
    (∀ p ∈ init_first_season_ratings combos start_rating, p.2 = start_rating) ∧
      (∀ tm, (∃ p ∈ init_first_season_ratings combos start_rating, p.1 = tm) ↔
        ∃ m, listMin (combos.map (fun c => c.2.1)) = some m ∧
          ∃ c ∈ combos, c.2.1 = m ∧ c.2.2 = tm) := by
  cases hmin : listMin (combos.map (fun c => c.2.1)) with
  | none =>
    have hrw : init_first_season_ratings combos start_rating = [] := by
      unfold init_first_season_ratings; rw [hmin]
    rw [hrw]
    constructor
    · intro p hp
      exact absurd hp (List.not_mem_nil p)
    · intro tm
      constructor
      · rintro ⟨p, hp, _⟩
        exact absurd hp (List.not_mem_nil p)
      · rintro ⟨m, hm, _⟩
        exact Option.noConfusion hm
  | some m =>
    have hrw : init_first_season_ratings combos start_rating =
        (combos.filter (fun c => decide (c.2.1 = m))).map (fun c => (c.2.2, start_rating)) := by
      unfold init_first_season_ratings; rw [hmin]
    rw [hrw]
    constructor
    · intro p hp
      rcases List.mem_map.mp hp with ⟨c, _, hcp⟩
      rw [← hcp]
    · intro tm
      constructor
      · rintro ⟨p, hp, hptm⟩
        rcases List.mem_map.mp hp with ⟨c, hc, hcp⟩
        rcases List.mem_filter.mp hc with ⟨hcc, hcs⟩
        simp only [decide_eq_true_eq] at hcs
        exact ⟨m, rfl, c, hcc, hcs, by rw [← hptm, ← hcp]⟩
      · rintro ⟨m', hm', c, hc, hcs, hctm⟩
        have hmm : m = m' := by
          injection hm'
        subst hmm
        exact ⟨(c.2.2, start_rating),
          List.mem_map.mpr ⟨c, List.mem_filter.mpr ⟨hc, by simp [hcs]⟩, rfl⟩, hctm⟩

/-- Witness for C6 amended: a first-season row receives the uniform
start rating 2000. -/
theorem init_ratings_first_season_witness :
    ((5 : Nat), (2000 : Nat)).2 = 2000 :=
  (init_ratings_first_season [(1, 0, 5)] 2000).1 (5, 2000) (by decide)

/-- C7 as stated fails: a score splitting into three integers is not
"exactly two integers", yet result classification silently compares the
first two and returns a result instead of raising. -/
theorem calc_result_extra_ints_counterexample :
    (splitParts "1:2:3".data).mapM (fun p => parseIntChars (pyStrip p)) = some [1, 2, 3] ∧
      _calc_result "1:2:3" = Except.ok "win2" := by
  exact ⟨by decide, rfl⟩

theorem mapM_option_length {α β : Type} (f : α → Option β) :
    ∀ (l : List α) (l2 : List β), l.mapM f = some l2 → l2.length = l.length := by
  intro l
  induction l with
  | nil =>
    intro l2 h
    rw [List.mapM_nil] at h
    injection h with h
    rw [← h]
    rfl
  | cons x xs ih =>
    intro l2 h
    simp only [List.mapM_cons, Option.pure_def, Option.bind_eq_bind, Option.bind_eq_some] at h
    rcases h with ⟨y, _, ys, hys, hcons⟩
    injection hcons with hcons
    rw [← hcons]
    simp [ih ys hys]

/-- C7 amended: result classification raises a hard error exactly when
some colon-separated part of the score is not an integer or the score
splits into fewer than two parts; a score splitting into more than two
integers is classified from the first two without error. -/
theorem calc_result_error_iff (score : String) :
    (∃ e, _calc_result score = Except.error e) ↔
      ((splitParts score.data).mapM (fun p => parseIntChars (pyStrip p)) = none ∨
        (splitParts score.data).length < 2) := by
  unfold _calc_result
  cases hm : (splitParts score.data).mapM (fun p => parseIntChars (pyStrip p)) with
  | none =>
    exact ⟨fun _ => Or.inl rfl, fun _ => ⟨PipeError.valueError, rfl⟩⟩
  | some scores =>
    have hlen := mapM_option_length _ _ _ hm
    cases scores with
    | nil =>
      simp only [List.length_nil] at hlen
      exact ⟨fun _ => Or.inr (by omega), fun _ => ⟨PipeError.indexError, rfl⟩⟩
    | cons a t =>
      cases t with
      | nil =>
        simp only [List.length_cons, List.length_nil] at hlen
        exact ⟨fun _ => Or.inr (by omega), fun _ => ⟨PipeError.indexError, rfl⟩⟩
      | cons b t2 =>
        simp only [List.length_cons] at hlen
        constructor
        · rintro ⟨e, he⟩
          by_cases h1 : a > b
          · simp [h1] at he
          · by_cases h2 : a = b
            · simp [h1, h2] at he
            · simp [h1, h2] at he
        · rintro (h | h)
          · exact Option.noConfusion h
          · exact absurd h (by omega)

/-- Witness for C7 amended: the empty score has a single non-integer
part, so classification raises. -/
theorem calc_result_error_iff_witness :
    (∃ e, _calc_result "" = Except.error e) ↔
      ((splitParts "".data).mapM (fun p => parseIntChars (pyStrip p)) = none ∨
        (splitParts "".data).length < 2) :=
  calc_result_error_iff ""

/-- C8: the bootstrap rating aggregation restricts the team-season
table to its earliest season, left-joins the external ratings by team
(an unmatched team simply gets a missing rating), and assigns every row
its tournament's mean of the present ratings rounded to two decimals;
on Scenario C it yields 2000.00 for both T1 teams and 1900.00 for T2's
team. -/
theorem season_ratings_spec :
    (∀ (elo_ratings : List (Nat × ℚ)) (team_seasons : List TeamSeasonRow) (p : Nat × Option ℚ),
        p ∈ save_prepare_season_initial_ratings elo_ratings team_seasons ↔
          ∃ m, listMin (team_seasons.map (fun r => r.season)) = some m ∧
            ∃ row ∈ team_seasons, row.season = m ∧
              p = (row.team, tournamentAvgRating
                ((team_seasons.filter (fun r => decide (r.season = m))).map
                  (fun r => (r, lookupRating elo_ratings r.team))) row.tournament)) ∧
      save_prepare_season_initial_ratings [(0, 1900), (1, 2100)]
          [⟨1, 0, 0⟩, ⟨1, 0, 1⟩, ⟨2, 0, 0⟩] =
        [(0, some 2000), (1, some 2000), (0, some 1900)] := by
  constructor
  · intro elo ts p
    cases hmin : listMin (ts.map (fun r => r.season)) with
    | none =>
      have hrw : save_prepare_season_initial_ratings elo ts = [] := by
        unfold save_prepare_season_initial_ratings; rw [hmin]
      rw [hrw]
      constructor
      · intro hp
        exact absurd hp (List.not_mem_nil p)
      · rintro ⟨m, hm, _⟩
        exact Option.noConfusion hm
    | some m =>
      have hrw : save_prepare_season_initial_ratings elo ts =
          ((ts.filter (fun r => decide (r.season = m))).map
            (fun r => (r, lookupRating elo r.team))).map
            (fun x => (x.1.team, tournamentAvgRating
              ((ts.filter (fun r => decide (r.season = m))).map
                (fun r => (r, lookupRating elo r.team))) x.1.tournament)) := by
        unfold save_prepare_season_initial_ratings; rw [hmin]
      rw [hrw]
      constructor
      · intro hp
        rcases List.mem_map.mp hp with ⟨x, hx, hxp⟩
        rcases List.mem_map.mp hx with ⟨row, hrow, hrx⟩
        rcases List.mem_filter.mp hrow with ⟨hrts, hrs⟩
        simp only [decide_eq_true_eq] at hrs
        refine ⟨m, rfl, row, hrts, hrs, ?_⟩
        rw [← hxp, ← hrx]
      · rintro ⟨m', hm', row, hrow, hrs, hp⟩
        have hmm : m = m' := by
          injection hm'
        subst hmm
        apply List.mem_map.mpr
        refine ⟨(row, lookupRating elo row.team),
          List.mem_map.mpr ⟨row, List.mem_filter.mpr ⟨hrow, by simp [hrs]⟩, rfl⟩, ?_⟩
        rw [hp]
  · decide

/-- Witness for C8 at Scenario C: team 0's aggregated entry is a member
of the output. -/
theorem season_ratings_spec_witness :
    ((0 : Nat), (some (1900 : ℚ))) ∈
        save_prepare_season_initial_ratings [(0, 1900), (1, 2100)]
          [⟨1, 0, 0⟩, ⟨1, 0, 1⟩, ⟨2, 0, 0⟩] ↔
      ∃ m, listMin (([⟨1, 0, 0⟩, ⟨1, 0, 1⟩, ⟨2, 0, 0⟩] : List TeamSeasonRow).map
          (fun r => r.season)) = some m ∧
        ∃ row ∈ ([⟨1, 0, 0⟩, ⟨1, 0, 1⟩, ⟨2, 0, 0⟩] : List TeamSeasonRow), row.season = m ∧
          ((0 : Nat), (some (1900 : ℚ))) = (row.team, tournamentAvgRating
            ((([⟨1, 0, 0⟩, ⟨1, 0, 1⟩, ⟨2, 0, 0⟩] : List TeamSeasonRow).filter
                (fun r => decide (r.season = m))).map
              (fun r => (r, lookupRating [(0, 1900), (1, 2100)] r.team))) row.tournament) :=
  season_ratings_spec.1 [(0, 1900), (1, 2100)] [⟨1, 0, 0⟩, ⟨1, 0, 1⟩, ⟨2, 0, 0⟩]
    (0, some 1900)

/-- C9: with a missing game-listing file the pipeline entry point
raises `FileNotFoundError` immediately, its message naming the
offending path. -/
theorem missing_input_error (fs : String → Option (List RawGame)) (games_list_path : String)
    (min_num_games start_rating : Nat) (h : fs games_list_path = none) :
    generate_team_season_combos_and_init_team_ratings fs games_list_path min_num_games
        start_rating =
      Except.error (PipeError.fileNotFound ("File not found: " ++ games_list_path)) := by
  unfold generate_team_season_combos_and_init_team_ratings read_game_listing
  rw [h]

/-- Witness for C9: a file system without the requested path makes the
entry point fail with the path in the message. -/
theorem missing_input_error_witness :
    generate_team_season_combos_and_init_team_ratings (fun _ => none) "games.csv" 1 2000 =
      Except.error (PipeError.fileNotFound ("File not found: " ++ "games.csv")) :=
  missing_input_error (fun _ => none) "games.csv" 1 2000 rfl
